import Mathlib

/-!
Shallow embedding of the PRCYCoin miner (src/miner.cpp).

Embedded pieces, each annotated with the source lines it comes from:
 * the mempool pre-filter building vecPriority inside CreateNewBlock
   (lines 266-321): spent-key-image / invalid-outpoint input loop,
   CheckHaveInputs, and the per-build duplicate-key-image scan;
 * the transaction selection loop (lines 325-413): size limits, the free
   transaction floor, the priority-to-fee mode switch, input re-checks,
   admission bookkeeping and the orphan wake-up step over mapDependers;
 * the PoW coinbase / payee finalization (lines 187-200, 415-441);
 * GetListOfPoSInfo (lines 103-158) and the PoA template builder
   CreateNewPoABlock (lines 509-607, reward computation lines 556-563);
 * ProcessBlockFound (lines 668-701);
 * the PoS coin-stake search gate of CreateNewBlock (lines 204-233).

Modelling conventions.  Hashes, key images and scripts are natural numbers;
amounts are integers; serialized sizes are naturals.  External collaborators
(IsSpentKeyImage, invalid_out::ContainsOutPoint, CheckInputs script
verification, IsFinalTx, AllowFree, CFeeRate, FillBlockPayee, the chain
index, ReVerifyPoSBlock, the wallet) are not in src; they enter the
embedding as function parameters or as per-transaction fields carrying
their results, following the interface description of the specification.
CheckHaveInputs is modelled from the spec: a transaction passes when every
input prevout is present in the UTXO view.  The heap order of vecPriority
(a comparator over C++ doubles, lines 71-92) is abstracted: the initial
pop order and the re-heapify on the priority-to-fee transition are
function parameters, since no claim below depends on the concrete order.
-/

/-- COutPoint: reference to a previous transaction output. -/
structure OutPoint where
  hash : Nat
  n : Nat
deriving DecidableEq, Repr

/-- CTxIn: a transaction input with its ring-signature key image. -/
structure CTxIn where
  prevout : OutPoint
  keyImage : Nat
deriving DecidableEq, Repr

/-- CTxOut: a transaction output (value and script; commitment and
ephemeral keys are irrelevant to the claims and omitted). -/
structure CTxOut where
  nValue : Int
  scriptPubKey : Nat
deriving DecidableEq, Repr

/-- CTransaction as the selector sees it.  The fields finalAtNextHeight,
feeRatePerK and allowFree carry the results of the external calls
IsFinalTx(tx, nHeight), CFeeRate(tx.nTxFee, nTxSize) (satoshis per 1000
bytes) and AllowFree(dPriority); serializedSize carries
GetSerializeSize(tx, SER_NETWORK, PROTOCOL_VERSION). -/
structure CTransaction where
  hash : Nat
  vin : List CTxIn
  vout : List CTxOut
  nTxFee : Int
  isCoinBase : Bool
  isCoinStake : Bool
  finalAtNextHeight : Bool
  serializedSize : Nat
  feeRatePerK : Int
  allowFree : Bool
deriving DecidableEq, Repr

/-- External chain state consumed by the selector: IsSpentKeyImage (keyed
by key image), invalid_out::ContainsOutPoint, the confirmed UTXO set
backing the CCoinsViewCache, and the CheckInputs script-verification
verdict per transaction. -/
structure ChainEnv where
  isSpentKeyImage : Nat → Bool
  containsOutPoint : OutPoint → Bool
  utxo : List OutPoint
  checkInputs : CTransaction → Bool

/-- Modelled from the spec: CheckHaveInputs (consensus/tx_verify, not in
src) rejects a transaction when any required input is missing from the
UTXO view (spec section 4.2 step 3 and section 6). -/
def checkHaveInputs (view : List OutPoint) (tx : CTransaction) : Bool :=
  tx.vin.all (fun txin => decide (txin.prevout ∈ view))

/-- Inner input loop of the mempool pre-filter, miner.cpp lines 277-289:
returns the final value of fKeyImageCheck.  A spent key image clears the
flag and breaks; a blacklisted outpoint only logs and breaks, leaving the
flag set (the transaction is NOT rejected) and skipping the spent-key-image
check for all later inputs. -/
def keyImageSpentLoop (env : ChainEnv) : List CTxIn → Bool
  | [] => true
  | txin :: rest =>
    if env.isSpentKeyImage txin.keyImage then false
    else if env.containsOutPoint txin.prevout then true
    else keyImageSpentLoop env rest

/-- Duplicate-key-image scan, miner.cpp lines 310-318: walks the inputs,
inserting each fresh key image into the per-build set, and stops at the
first key image already present.  Returns (isDuplicate, updated set).
The C++ std::set is modelled as a list used only through membership. -/
def keyImageDupLoop : List CTxIn → List Nat → Bool × List Nat
  | [], kis => (false, kis)
  | txin :: rest, kis =>
    if txin.keyImage ∈ kis then (true, kis)
    else keyImageDupLoop rest (kis ++ [txin.keyImage])

/-- Key images of the longest scanned prefix of the input list whose key
images are fresh relative to the growing set: exactly the images that
keyImageDupLoop inserts before detecting a duplicate (or all of them). -/
def dupFreeScan : List CTxIn → List Nat → List Nat
  | [], _ => []
  | txin :: rest, kis =>
    if txin.keyImage ∈ kis then []
    else txin.keyImage :: dupFreeScan rest (kis ++ [txin.keyImage])

/-- The three checks a mempool transaction must pass before the
duplicate-key-image scan (miner.cpp lines 273, 276-293, 295). -/
def passesPreFilter (env : ChainEnv) (tx : CTransaction) : Bool :=
  !(tx.isCoinBase || tx.isCoinStake || !tx.finalAtNextHeight)
    && keyImageSpentLoop env tx.vin
    && checkHaveInputs env.utxo tx

/-- The vecPriority construction loop over the mempool snapshot,
miner.cpp lines 270-321.  Accumulator: (vecPriority, keyImages).
Transactions skipped before the duplicate scan leave the key-image set
untouched; a transaction skipped by the duplicate scan leaves behind the
key images inserted before the duplicate was found. -/
def buildVecPriority (env : ChainEnv) :
    List CTransaction → List CTransaction × List Nat → List CTransaction × List Nat
  | [], acc => acc
  | tx :: rest, acc =>
    if tx.isCoinBase || tx.isCoinStake || !tx.finalAtNextHeight then
      buildVecPriority env rest acc
    else if !(keyImageSpentLoop env tx.vin) then
      buildVecPriority env rest acc
    else if !(checkHaveInputs env.utxo tx) then
      buildVecPriority env rest acc
    else
      let r := keyImageDupLoop tx.vin acc.2
      if r.1 then buildVecPriority env rest (acc.1, r.2)
      else buildVecPriority env rest (acc.1 ++ [tx], r.2)

/-- Entry point of the pre-filter: empty vecPriority and key-image set. -/
def mempoolFilter (env : ChainEnv) (mempool : List CTransaction) :
    List CTransaction × List Nat :=
  buildVecPriority env mempool ([], [])

/-- COrphan (miner.cpp lines 52-63): a candidate with its pending
ancestor set.  Note: CreateNewBlock declares vOrphan and mapDependers
(lines 262-263) and the wake-up code (lines 401-412), but no code path
ever allocates a COrphan or inserts into mapDependers (porphan at line
297 is never assigned), so the map stays empty through every build. -/
structure OrphanM where
  tx : CTransaction
  setDependsOn : List Nat
deriving DecidableEq, Repr

/-- Configuration of one selector run: the three clamped size budgets
(miner.cpp lines 236-249) and the abstract re-heapify applied to the
remaining queue on the priority-to-fee transition (lines 363-364). -/
structure SelCfg where
  nBlockMaxSize : Nat
  nBlockPrioritySize : Nat
  nBlockMinSize : Nat
  reorder : List CTransaction → List CTransaction

/-- Clamp of the -blockmaxsize argument, miner.cpp line 239. -/
def clampBlockMaxSize (networkMax arg : Nat) : Nat :=
  max 1000 (min (networkMax - 1000) arg)

/-- Mutable state of the selection loop, miner.cpp lines 325-334:
the remaining queue (heap order abstracted), the transactions appended to
the block after the coinbase, the parallel fee and sig-op vectors, the
running counters, the sorted-by-fee flag, the coins view and the (always
empty) dependers map. -/
structure SelState where
  queue : List CTransaction
  selected : List CTransaction
  vTxFees : List Int
  vTxSigOps : List Int
  nBlockSize : Nat
  nBlockTx : Nat
  nBlockSigOps : Int
  nFees : Int
  fSortedByFee : Bool
  view : List OutPoint
  mapDependers : List (Nat × List OrphanM)

/-- UpdateCoins on the view (only reached for coinstakes, line 381-383):
spend the inputs and add the outputs of tx. -/
def updateCoins (tx : CTransaction) (view : List OutPoint) : List OutPoint :=
  (view.filter (fun o => !(tx.vin.any (fun i => decide (i.prevout = o))))) ++
    (List.range tx.vout.length).map (fun i => OutPoint.mk tx.hash i)

/-- One iteration of the orphan wake-up loop body, miner.cpp lines
403-411: erase the admitted hash from the orphan's pending set and, when
the set empties, queue the orphan's transaction.  Accumulates (woken
transactions, updated orphan records). -/
def wakeStep (h : Nat) (acc : List CTransaction × List OrphanM) (o : OrphanM) :
    List CTransaction × List OrphanM :=
  if o.setDependsOn = [] then (acc.1, acc.2 ++ [o])
  else
    let o2 : OrphanM := { o with setDependsOn := o.setDependsOn.erase h }
    if o2.setDependsOn = [] then (acc.1 ++ [o2.tx], acc.2 ++ [o2])
    else (acc.1, acc.2 ++ [o2])

/-- Orphan wake-up after admitting the transaction with hash h, miner.cpp
lines 401-412.  Dead in this program: mapDependers is never populated. -/
def wakeOrphans (h : Nat) (st : SelState) : SelState :=
  match st.mapDependers.lookup h with
  | none => st
  | some orphans =>
    let r := orphans.foldl (wakeStep h) ([], [])
    { st with
      queue := st.queue ++ r.1,
      mapDependers := st.mapDependers.map (fun p => if p.1 = h then (p.1, r.2) else p) }

/-- Priority-to-fee mode switch, miner.cpp lines 360-365: past the
priority budget, or when the head no longer qualifies as free, switch to
fee ordering and rebuild the heap over the remaining queue. -/
def modeSwitch (cfg : SelCfg) (tx : CTransaction) (st : SelState) : SelState :=
  if !st.fSortedByFee
      && (decide (cfg.nBlockPrioritySize ≤ st.nBlockSize + tx.serializedSize)
          || !tx.allowFree) then
    { st with fSortedByFee := true, queue := cfg.reorder st.queue }
  else st

/-- Admission bookkeeping, miner.cpp lines 380-412: UpdateCoins for
coinstakes, the pushes and counter updates, then the orphan wake-up. -/
def admitTx (tx : CTransaction) (st : SelState) : SelState :=
  let st2 := if tx.isCoinStake then { st with view := updateCoins tx st.view } else st
  let st3 : SelState :=
    { st2 with
      selected := st2.selected ++ [tx],
      vTxFees := st2.vTxFees ++ [tx.nTxFee],
      vTxSigOps := st2.vTxSigOps ++ [0],
      nBlockSize := st2.nBlockSize + tx.serializedSize,
      nBlockTx := st2.nBlockTx + 1,
      nFees := st2.nFees + tx.nTxFee }
  wakeOrphans tx.hash st3

/-- Processing of one popped transaction, miner.cpp lines 336-412.
The transaction tx has already been popped; st.queue holds the rest.
In order: the block-size limit (line 346), the free-transaction floor
(lines 354-356), the priority-to-fee mode switch (lines 360-365, note it
does not skip the popped transaction), CheckHaveInputs against the
current view (line 367), CheckInputs script verification (line 377), and
admission via admitTx. -/
def selectStep (cfg : SelCfg) (env : ChainEnv) (tx : CTransaction) (st : SelState) :
    SelState :=
  let nTxSize := tx.serializedSize
  if cfg.nBlockMaxSize ≤ st.nBlockSize + nTxSize then st
  else if st.fSortedByFee && decide (tx.feeRatePerK < 5000)
      && decide (cfg.nBlockMinSize ≤ st.nBlockSize + nTxSize) then st
  else
    let st1 := modeSwitch cfg tx st
    if !(checkHaveInputs st1.view tx) then st1
    else if !(env.checkInputs tx) then st1
    else admitTx tx st1

/-- The selection while-loop, miner.cpp lines 335-413, with explicit fuel
(each iteration pops exactly one transaction; runSelection supplies fuel
equal to the initial queue length). -/
def selectLoop (cfg : SelCfg) (env : ChainEnv) : Nat → SelState → SelState
  | 0, st => st
  | fuel + 1, st =>
    match st.queue with
    | [] => st
    | tx :: rest => selectLoop cfg env fuel (selectStep cfg env tx { st with queue := rest })

/-- Initial selection state, miner.cpp lines 325-328: running size 1000
(coinbase overhead), sig-ops 100, fee mode from the start exactly when
nBlockPrioritySize is zero, view = coins tip, dependers map empty. -/
def initSelState (cfg : SelCfg) (env : ChainEnv) (q : List CTransaction) : SelState :=
  { queue := q, selected := [], vTxFees := [], vTxSigOps := [],
    nBlockSize := 1000, nBlockTx := 0, nBlockSigOps := 100, nFees := 0,
    fSortedByFee := decide (cfg.nBlockPrioritySize = 0),
    view := env.utxo, mapDependers := [] }

/-- A whole selector run inside CreateNewBlock: pre-filter the mempool
snapshot into vecPriority, heapify (abstracted pop order), loop. -/
def runSelection (cfg : SelCfg) (env : ChainEnv)
    (heapOrder : List CTransaction → List CTransaction)
    (mempool : List CTransaction) : SelState :=
  let vec := (mempoolFilter env mempool).1
  let q := heapOrder vec
  selectLoop cfg env q.length (initSelState cfg env q)

/-- PoW coinbase and payee finalization, miner.cpp lines 187-200 and
415-441, as a pure function of the coinbase script, the block subsidy
GetBlockValue(prev height), the selected fees, and the external
FillBlockPayee (masternode-payments, abstracted as a function on the vout
list of the local CMutableTransaction txNew).  Faithful detail: line 200
pushes a COPY of txNew into pblock->vtx before FillBlockPayee runs, so
FillBlockPayee (line 417) and the else-branch assignment at line 424
mutate only the local txNew; the returned block's coinbase is only
modified by line 436, which adds the fees to its vout[0] value. -/
structure PowCoinbaseResult where
  blockCoinbaseVout : List CTxOut
  payee : Option Nat
  txNewFinalVout : List CTxOut
deriving DecidableEq, Repr

/-- PoW coinbase finalization, see PowCoinbaseResult. -/
def powCoinbaseFinalize (scriptIn : Nat) (subsidy nFees : Int)
    (fillBlockPayee : List CTxOut → List CTxOut) : PowCoinbaseResult :=
  let txNew : List CTxOut := [CTxOut.mk subsidy scriptIn]
  let blockVout := txNew
  let txNew2 := fillBlockPayee txNew
  let payee : Option Nat :=
    if 1 < txNew2.length then some (txNew2.getD 1 (CTxOut.mk 0 0)).scriptPubKey
    else none
  let txNew3 :=
    if 1 < txNew2.length then txNew2
    else
      match txNew2 with
      | [] => []
      | o :: rest => CTxOut.mk (nFees + subsidy) o.scriptPubKey :: rest
  let blockVout2 :=
    match blockVout with
    | [] => []
    | o :: rest => CTxOut.mk (o.nValue + nFees) o.scriptPubKey :: rest
  PowCoinbaseResult.mk blockVout2 payee txNew3

/-- What the miner sees of one chain entry: the block header flags, the
block hash, the header time, and (for PoA blocks) the height of the last
entry of the block's posBlocksAudited list. -/
structure BlockInfo where
  isPoA : Bool
  isPoS : Bool
  hash : Nat
  nTime : Nat
  lastAuditedHeight : Nat
deriving DecidableEq, Repr

/-- PoSBlockSummary (poa.h): one audited PoS block. -/
structure PoSBlockSummary where
  hash : Nat
  nTime : Nat
  height : Nat
deriving DecidableEq, Repr

/-- Projection of a summary to the fields that do not depend on
re-verification. -/
def sKey (s : PoSBlockSummary) : Nat × Nat := (s.hash, s.height)

/-- Backward scan for the previous PoA block, miner.cpp lines 107-113:
while nloopIdx >= START_POA_BLOCK, stop at the first PoA block, else
decrement.  uint32 wrap-around below zero (possible only when
START_POA_BLOCK = 0) is not modelled; the theorems assume
1 <= START_POA_BLOCK. -/
def findPrevPoA (chain : Nat → BlockInfo) (startPoa : Nat) : Nat → Nat
  | 0 => 0
  | h + 1 =>
    if h + 1 < startPoa then h + 1
    else if (chain (h + 1)).isPoA then h + 1
    else findPrevPoA chain startPoa h

/-- Genesis-PoA audit enumeration, miner.cpp lines 116-123: one summary
for EVERY height LAST_POW_BLOCK+1 .. LAST_POW_BLOCK+MAX_NUM_POS_BLOCKS_AUDITED
in ascending order, with no proof-of-stake test on the block; nTime is the
header time when ReVerifyPoSBlock succeeds and 0 otherwise. -/
def genesisAudits (chain : Nat → BlockInfo) (reverify : Nat → Bool)
    (lastPow maxAudited : Nat) : List PoSBlockSummary :=
  (List.range maxAudited).map (fun k =>
    let i := lastPow + 1 + k
    PoSBlockSummary.mk (chain i).hash (if reverify i then (chain i).nTime else 0) i)

/-- Continuation audit enumeration, miner.cpp lines 136-154: walk
nextAuditHeight up to the tip, append a summary only for proof-of-stake
blocks, and stop as soon as the audit list size equals
MAX_NUM_POS_BLOCKS_AUDITED (checked after every height, appended or not).
The while-loop is driven by fuel = currentHeight + 1 - nextAuditHeight. -/
def contAudits (chain : Nat → BlockInfo) (reverify : Nat → Bool)
    (maxAudited currentHeight : Nat) :
    Nat → Nat → List PoSBlockSummary → List PoSBlockSummary
  | 0, _, acc => acc
  | fuel + 1, next, acc =>
    if currentHeight < next then acc
    else
      let acc2 :=
        if (chain next).isPoS then
          acc ++ [PoSBlockSummary.mk (chain next).hash
            (if reverify next then (chain next).nTime else 0) next]
        else acc
      if acc2.length = maxAudited then acc2
      else contAudits chain reverify maxAudited currentHeight fuel (next + 1) acc2

/-- GetListOfPoSInfo, miner.cpp lines 103-158: returns the audit list and
nloopIdx (the height of the previous PoA block, or a value <= START_POA_BLOCK
when none was found).  Branch choice at line 114 uses <=, so a PoA block
sitting exactly at START_POA_BLOCK still selects the genesis branch. -/
def getListOfPoSInfo (chain : Nat → BlockInfo) (reverify : Nat → Bool)
    (startPoa lastPow maxAudited currentHeight : Nat) :
    List PoSBlockSummary × Nat :=
  let nloopIdx := findPrevPoA chain startPoa currentHeight
  if nloopIdx ≤ startPoa then
    (genesisAudits chain reverify lastPow maxAudited, nloopIdx)
  else
    if startPoa < nloopIdx then
      let lastAuditedHeight := (chain nloopIdx).lastAuditedHeight
      let nextAuditHeight := lastAuditedHeight + 1
      (contAudits chain reverify maxAudited currentHeight
        (currentHeight + 1 - nextAuditHeight) nextAuditHeight [], nloopIdx)
    else ([], nloopIdx)

/-- Modelled from the spec: COIN (amount.h, not in src) is the base
currency unit; the standard value 10^8 makes the double products
0.5 * COIN and 0.25 * COIN exact. -/
def COIN : Nat := 100000000

/-- PoA block reward, miner.cpp lines 556-563: 0.25 COIN per audited
block at or after the hardfork height, 0.5 COIN before it. -/
def poaReward (numAudited tipHeight hardFork : Nat) : Nat :=
  if hardFork ≤ tipHeight then numAudited * (COIN / 4)
  else numAudited * (COIN / 2)

/-- CreateNewPoABlock, miner.cpp lines 509-607, reduced to the data the
claims are about: no template below START_POA_BLOCK (line 513) or when
the audit list is empty (line 548); otherwise the audit list together
with the coinbase vout[0] value (line 563). -/
def createNewPoABlock (chain : Nat → BlockInfo) (reverify : Nat → Bool)
    (startPoa lastPow maxAudited hardFork tipHeight : Nat) :
    Option (List PoSBlockSummary × Nat) :=
  if tipHeight < startPoa then none
  else
    let audits := (getListOfPoSInfo chain reverify startPoa lastPow maxAudited tipHeight).1
    if audits.length = 0 then none
    else some (audits, poaReward audits.length tipHeight hardFork)

/-- Side effects of ProcessBlockFound in program order, miner.cpp lines
668-701: reservekey.KeepKey (line 680), the wallet request-counter reset
(line 685), the BlockFound signal (line 689), the ProcessNewBlock call
(line 693) and the inventory broadcast to peers (lines 696-698). -/
structure SubmitEffects where
  keptKey : Bool
  requestCountReset : Bool
  blockFoundSignalled : Bool
  processNewBlockCalled : Bool
  inventoryBroadcast : Bool
deriving DecidableEq, Repr

/-- No effect has happened. -/
def noEffects : SubmitEffects := SubmitEffects.mk false false false false false

/-- ProcessBlockFound, miner.cpp lines 668-701: the stale check against
g_best_block under the best-block lock comes first; a stale block returns
false with no effects.  processNewBlockOk abstracts the external
ProcessNewBlock verdict. -/
def processBlockFound (hashPrevBlock gBestBlock : Nat) (processNewBlockOk : Bool) :
    Bool × SubmitEffects :=
  if hashPrevBlock ≠ gBestBlock then (false, noEffects)
  else
    let e1 := SubmitEffects.mk true true true true false
    if !processNewBlockOk then (false, e1)
    else (true, { e1 with inventoryBroadcast := true })

/-- Process-wide coin-stake search state, miner.cpp lines 67 and 205. -/
structure StakeSearchState where
  nLastCoinStakeSearchTime : Int
  nLastCoinStakeSearchInterval : Int
deriving DecidableEq, Repr

/-- Result of the PoS stake-search segment of CreateNewBlock. -/
structure StakeSearchOutcome where
  attempted : Bool
  stakeFound : Bool
  newState : StakeSearchState
deriving DecidableEq, Repr

/-- PoS coin-stake search gate of CreateNewBlock, miner.cpp lines
204-233: with nSearchTime = pblock->nTime (the adjusted time at the
search moment), the wallet's CreateCoinStake is attempted only when
nSearchTime >= nLastCoinStakeSearchTime, in which case the interval and
last-search-time globals are updated to nSearchTime; otherwise nothing is
searched and the state is untouched.  walletFindsStake abstracts the
CreateCoinStake verdict; when stakeFound is false CreateNewBlock returns
NULL (lines 229-232). -/
def posCoinStakeSearch (blockTime : Int) (walletFindsStake : Bool)
    (st : StakeSearchState) : StakeSearchOutcome :=
  if st.nLastCoinStakeSearchTime ≤ blockTime then
    StakeSearchOutcome.mk true walletFindsStake
      (StakeSearchState.mk blockTime (blockTime - st.nLastCoinStakeSearchTime))
  else
    StakeSearchOutcome.mk false false st

/-! Concrete instances used by the evaluation theorems below. -/

/-- Outpoint spent by the C1 example transaction. -/
def opC1 : OutPoint := OutPoint.mk 100 0

/-- C1 example: a single-input transaction whose prevout is blacklisted
and whose key image is unspent; all other checks pass. -/
def txC1 : CTransaction :=
  CTransaction.mk 11 [CTxIn.mk opC1 21] [CTxOut.mk 40 1] 2000
    false false true 300 9000 true

/-- C1 environment: opC1 is in the invalid-outputs blacklist and in the
UTXO view; no key image is spent on-chain; scripts verify. -/
def envC1 : ChainEnv :=
  ChainEnv.mk (fun _ => false) (fun o => decide (o = opC1)) [opC1] (fun _ => true)

/-- Selector configuration used by the concrete runs: a large block, fee
mode from the start, no minimum size, identity re-heapify. -/
def cfgBig : SelCfg := SelCfg.mk 1000000 0 0 id

/-- C2 example: first transaction, one input with key image 5. -/
def txC2a : CTransaction :=
  CTransaction.mk 1 [CTxIn.mk (OutPoint.mk 100 0) 5] [CTxOut.mk 40 1] 2000
    false false true 300 9000 true

/-- C2 example: second transaction; its first input has the fresh key
image 7, its second input repeats key image 5 of the first transaction. -/
def txC2b : CTransaction :=
  CTransaction.mk 2 [CTxIn.mk (OutPoint.mk 101 0) 7, CTxIn.mk (OutPoint.mk 102 0) 5]
    [CTxOut.mk 30 1] 2000 false false true 300 9000 true

/-- C2 environment: nothing spent, nothing blacklisted, all prevouts in
the UTXO view. -/
def envC2 : ChainEnv :=
  ChainEnv.mk (fun _ => false) (fun _ => false)
    [OutPoint.mk 100 0, OutPoint.mk 101 0, OutPoint.mk 102 0] (fun _ => true)

/-- C3 example: parent transaction Y spending a confirmed output. -/
def txC3Y : CTransaction :=
  CTransaction.mk 1 [CTxIn.mk (OutPoint.mk 100 0) 10] [CTxOut.mk 50 1] 2000
    false false true 200 10000 true

/-- C3 example: child transaction X spending output 0 of Y (hash 1),
which is in the mempool but not in the UTXO view. -/
def txC3X : CTransaction :=
  CTransaction.mk 2 [CTxIn.mk (OutPoint.mk 1 0) 20] [CTxOut.mk 40 1] 2000
    false false true 200 10000 true

/-- C3 environment: the UTXO view holds only Y's confirmed input. -/
def envC3 : ChainEnv :=
  ChainEnv.mk (fun _ => false) (fun _ => false) [OutPoint.mk 100 0] (fun _ => true)

/-- C4 counterexample configuration: -blockmaxsize=500 on a network
maximum of 3000 clamps to exactly 1000, the initial running size. -/
def cfgC4 : SelCfg := SelCfg.mk (clampBlockMaxSize 3000 500) 0 0 id

/-- Environment with an empty mempool view for the C4 runs. -/
def envC4 : ChainEnv := ChainEnv.mk (fun _ => false) (fun _ => false) [] (fun _ => true)

/-- C4 witness configuration: a maximum size strictly above 1000. -/
def cfgC4w : SelCfg := SelCfg.mk 2000 0 0 id

/-- C5 witness chain: no PoA block anywhere, every block PoS, hash equal
to the height, header time 1111. -/
def chainC5 (h : Nat) : BlockInfo := BlockInfo.mk false true h 1111 0

/-- C5 witness re-verification: always succeeds. -/
def revC5 (_ : Nat) : Bool := true

/-- C6 witness chain: no PoA block, header time 500. -/
def chainC6 (h : Nat) : BlockInfo := BlockInfo.mk false true h 500 0

/-- C6 witness re-verification: fails exactly at height 205. -/
def revC6 (h : Nat) : Bool := decide (h ≠ 205)

/-- The audit summary for height 205 under chainC6/revC6: hash recorded
normally, nTime zeroed by the failed re-verification. -/
def sC6 : PoSBlockSummary := PoSBlockSummary.mk 205 0 205

/-- C9 witness chain: every block is PoS, hash 77. -/
def chainC9 (_ : Nat) : BlockInfo := BlockInfo.mk false true 77 42 0

/-- First summary produced by the continuation enumeration over chainC9
starting at height 501. -/
def sC9 : PoSBlockSummary := PoSBlockSummary.mk 77 42 501

/-- C7 example payee fill: appends one masternode payee output with
script 777 and value 3 to the coinbase vout list. -/
def fillC7 (outs : List CTxOut) : List CTxOut := outs ++ [CTxOut.mk 3 777]

/-! Helper lemmas about the duplicate-key-image scan. -/

/-- The set returned by the duplicate scan is the input set extended by
the key images inserted before the first duplicate. -/
theorem keyImageDupLoop_snd (vin : List CTxIn) :
    ∀ kis, (keyImageDupLoop vin kis).2 = kis ++ dupFreeScan vin kis := by
  induction vin with
  | nil => intro kis; simp [keyImageDupLoop, dupFreeScan]
  | cons txin rest ih =>
    intro kis
    by_cases h : txin.keyImage ∈ kis
    · simp [keyImageDupLoop, dupFreeScan, h]
    · simp [keyImageDupLoop, dupFreeScan, h, ih]

/-- When the duplicate scan finds no duplicate, it inserts every key
image of the transaction. -/
theorem keyImageDupLoop_false_snd (vin : List CTxIn) :
    ∀ kis, (keyImageDupLoop vin kis).1 = false →
      (keyImageDupLoop vin kis).2 = kis ++ vin.map CTxIn.keyImage := by
  induction vin with
  | nil => intro kis _; simp [keyImageDupLoop]
  | cons txin rest ih =>
    intro kis h
    by_cases hm : txin.keyImage ∈ kis
    · simp [keyImageDupLoop, hm] at h
    · simp only [keyImageDupLoop, if_neg hm] at h ⊢
      rw [ih _ h]
      simp

/-- Unfolding buildVecPriority over a transaction that passes the three
pre-checks: only the duplicate scan decides admission. -/
theorem buildVecPriority_cons_pass (env : ChainEnv) (tx : CTransaction)
    (rest : List CTransaction) (acc : List CTransaction × List Nat)
    (h : passesPreFilter env tx = true) :
    buildVecPriority env (tx :: rest) acc =
      (if (keyImageDupLoop tx.vin acc.2).1
       then buildVecPriority env rest (acc.1, (keyImageDupLoop tx.vin acc.2).2)
       else buildVecPriority env rest (acc.1 ++ [tx], (keyImageDupLoop tx.vin acc.2).2)) := by
  unfold passesPreFilter at h
  simp only [Bool.and_eq_true, Bool.not_eq_true'] at h
  obtain ⟨⟨h1, h2⟩, h3⟩ := h
  simp only [buildVecPriority, h1, h2, h3]
  simp

/-! Claim theorems C1 - C3. -/

/-- Claim C1 (code bug, evaluated on the embedded code): the claim says a
transaction with a blacklisted input outpoint is rejected by the
selector, as the source's own comment and log line at miner.cpp lines
284-287 intend; but the code breaks out of the input loop without
clearing fKeyImageCheck, so the transaction txC1, whose only input
references the blacklisted outpoint opC1, is added to vecPriority and
ends up selected for the template. -/
theorem c1_invalid_outpoint_not_rejected :
    envC1.containsOutPoint opC1 = true ∧
    (mempoolFilter envC1 [txC1]).1 = [txC1] ∧
    (runSelection cfgBig envC1 id [txC1]).selected = [txC1] := by decide

/-- Claim C2 counterexample: with txC2a (key image 5) admitted first and
txC2b (key images 7 then 5) skipped as a duplicate, the per-build
key-image set afterwards also holds 7, a key image belonging only to the
skipped transaction - refuting the claim that the set contains exactly
the admitted transaction's key images and none from the skipped one. -/
theorem c2_keyimage_counterexample :
    (mempoolFilter envC2 [txC2a, txC2b]).1 = [txC2a] ∧
    7 ∈ (mempoolFilter envC2 [txC2a, txC2b]).2 ∧
    7 ∉ txC2a.vin.map CTxIn.keyImage := by decide

/-- Claim C2 as amended: for a two-transaction mempool snapshot where
both transactions pass the pre-checks, the first has no internal
duplicate and the second collides with the first's key images, the first
is admitted to vecPriority, the second is skipped, and the per-build
key-image set afterwards consists of the admitted transaction's key
images followed by those key images of the skipped transaction that were
scanned (and inserted) before its first duplicate input. -/
theorem c2_keyimage_amended (env : ChainEnv) (t1 t2 : CTransaction)
    (hp1 : passesPreFilter env t1 = true)
    (hp2 : passesPreFilter env t2 = true)
    (hnd : (keyImageDupLoop t1.vin []).1 = false)
    (hdup : (keyImageDupLoop t2.vin (t1.vin.map CTxIn.keyImage)).1 = true) :
    mempoolFilter env [t1, t2] =
      ([t1], t1.vin.map CTxIn.keyImage ++
        dupFreeScan t2.vin (t1.vin.map CTxIn.keyImage)) := by
  have hk1 : (keyImageDupLoop t1.vin ([] : List Nat)).2 = t1.vin.map CTxIn.keyImage := by
    rw [keyImageDupLoop_false_snd t1.vin [] hnd]; simp
  unfold mempoolFilter
  rw [buildVecPriority_cons_pass env t1 [t2] ([], []) hp1]
  rw [if_neg (by simp [hnd])]
  rw [hk1]
  rw [buildVecPriority_cons_pass env t2 [] ([] ++ [t1], t1.vin.map CTxIn.keyImage) hp2]
  rw [if_pos (by simp [hdup])]
  rw [keyImageDupLoop_snd t2.vin (t1.vin.map CTxIn.keyImage)]
  simp [buildVecPriority]

/-- Claim C2 witness: the amended statement evaluated at the concrete
pair txC2a / txC2b. -/
theorem c2_keyimage_witness :
    mempoolFilter envC2 [txC2a, txC2b] =
      ([txC2a], txC2a.vin.map CTxIn.keyImage ++
        dupFreeScan txC2b.vin (txC2a.vin.map CTxIn.keyImage)) :=
  c2_keyimage_amended envC2 txC2a txC2b (by decide) (by decide) (by decide) (by decide)

/-- Claim C3 (code bug, evaluated on the embedded code): the claim says
that when X depends only on Y, both are in the mempool and otherwise
admissible, admitting Y also admits X within the same build via the
orphan machinery.  In the source the orphan machinery is dead: porphan
(line 297) is never allocated and mapDependers (line 263) never receives
an entry, while the pre-filter drops X at line 295 because its input (an
output of the unconfirmed Y) is not in the UTXO view.  Concretely, with
mempool [txC3Y, txC3X] where txC3X spends txC3Y's output and everything
else is admissible, the build selects only txC3Y: txC3X never enters
vecPriority and is never admitted. -/
theorem c3_orphan_not_admitted :
    (mempoolFilter envC3 [txC3Y, txC3X]).1 = [txC3Y] ∧
    (runSelection cfgBig envC3 id [txC3Y, txC3X]).selected = [txC3Y] ∧
    txC3X ∉ (runSelection cfgBig envC3 id [txC3Y, txC3X]).selected ∧
    (runSelection cfgBig envC3 id [txC3Y, txC3X]).mapDependers = [] := by decide

/-! Helper lemmas for the running block-size counter. -/

/-- The orphan wake-up never changes the running block size. -/
theorem wakeOrphans_nBlockSize (h : Nat) (st : SelState) :
    (wakeOrphans h st).nBlockSize = st.nBlockSize := by
  unfold wakeOrphans
  split <;> rfl

/-- The mode switch never changes the running block size. -/
theorem modeSwitch_nBlockSize (cfg : SelCfg) (tx : CTransaction) (st : SelState) :
    (modeSwitch cfg tx st).nBlockSize = st.nBlockSize := by
  unfold modeSwitch
  split <;> rfl

/-- Admission adds exactly the serialized size of the admitted
transaction to the running block size. -/
theorem admitTx_nBlockSize (tx : CTransaction) (st : SelState) :
    (admitTx tx st).nBlockSize = st.nBlockSize + tx.serializedSize := by
  unfold admitTx
  rw [wakeOrphans_nBlockSize]
  split <;> rfl

/-- One selection step keeps the running block size strictly below the
maximum: a transaction is admitted only when the running size plus its
serialized size is strictly below nBlockMaxSize (miner.cpp line 346). -/
theorem selectStep_size_lt (cfg : SelCfg) (env : ChainEnv) (tx : CTransaction)
    (st : SelState) (hlt : st.nBlockSize < cfg.nBlockMaxSize) :
    (selectStep cfg env tx st).nBlockSize < cfg.nBlockMaxSize := by
  unfold selectStep
  dsimp only
  split
  · exact hlt
  · rename_i hsize
    split
    · exact hlt
    · split
      · rw [modeSwitch_nBlockSize]; exact hlt
      · split
        · rw [modeSwitch_nBlockSize]; exact hlt
        · rw [admitTx_nBlockSize, modeSwitch_nBlockSize]
          omega

/-- One selection step keeps the running block size at or below the
maximum. -/
theorem selectStep_size_le (cfg : SelCfg) (env : ChainEnv) (tx : CTransaction)
    (st : SelState) (hle : st.nBlockSize ≤ cfg.nBlockMaxSize) :
    (selectStep cfg env tx st).nBlockSize ≤ cfg.nBlockMaxSize := by
  unfold selectStep
  dsimp only
  split
  · exact hle
  · rename_i hsize
    split
    · exact hle
    · split
      · rw [modeSwitch_nBlockSize]; exact hle
      · split
        · rw [modeSwitch_nBlockSize]; exact hle
        · rw [admitTx_nBlockSize, modeSwitch_nBlockSize]
          omega

/-- The selection loop preserves strict boundedness of the running block
size at every iteration. -/
theorem selectLoop_size_lt (cfg : SelCfg) (env : ChainEnv) :
    ∀ fuel (st : SelState), st.nBlockSize < cfg.nBlockMaxSize →
      (selectLoop cfg env fuel st).nBlockSize < cfg.nBlockMaxSize := by
  intro fuel
  induction fuel with
  | zero => intro st h; exact h
  | succ n ih =>
    intro st h
    unfold selectLoop
    rcases hq : st.queue with _ | ⟨tx, rest⟩
    · exact h
    · exact ih _ (selectStep_size_lt cfg env tx { st with queue := rest } h)

/-- The selection loop preserves the weak bound as well. -/
theorem selectLoop_size_le (cfg : SelCfg) (env : ChainEnv) :
    ∀ fuel (st : SelState), st.nBlockSize ≤ cfg.nBlockMaxSize →
      (selectLoop cfg env fuel st).nBlockSize ≤ cfg.nBlockMaxSize := by
  intro fuel
  induction fuel with
  | zero => intro st h; exact h
  | succ n ih =>
    intro st h
    unfold selectLoop
    rcases hq : st.queue with _ | ⟨tx, rest⟩
    · exact h
    · exact ih _ (selectStep_size_le cfg env tx { st with queue := rest } h)

/-- Claim C4 counterexample: the clamp of miner.cpp line 239 can yield
nBlockMaxSize = 1000 (here: -blockmaxsize set to 500 on a network
maximum of 3000), and then the running counter, initialised to 1000,
already equals nBlockMaxSize - refuting the claim that the counter never
reaches nBlockMaxSize. -/
theorem c4_blocksize_counterexample :
    cfgC4.nBlockMaxSize = clampBlockMaxSize 3000 500 ∧
    cfgC4.nBlockMaxSize = 1000 ∧
    (runSelection cfgC4 envC4 id []).nBlockSize = cfgC4.nBlockMaxSize := by decide

/-- Claim C4 as amended: the clamped nBlockMaxSize is at least 1000 and
the running counter (initialised to 1000) never exceeds nBlockMaxSize; a
transaction is admitted only when the counter plus its serialized size
is strictly below nBlockMaxSize, so whenever nBlockMaxSize exceeds the
initial 1000 the counter stays strictly below nBlockMaxSize at all times
(invariant preserved by every loop state); in the degenerate clamped
case nBlockMaxSize = 1000 the counter stays equal to it. -/
theorem c4_blocksize_amended (networkMax arg : Nat) (cfg : SelCfg) (env : ChainEnv)
    (hp : List CTransaction → List CTransaction) (mp : List CTransaction)
    (fuel : Nat) (st : SelState) :
    1000 ≤ clampBlockMaxSize networkMax arg ∧
    (st.nBlockSize < cfg.nBlockMaxSize →
      (selectLoop cfg env fuel st).nBlockSize < cfg.nBlockMaxSize) ∧
    (1000 < cfg.nBlockMaxSize →
      (runSelection cfg env hp mp).nBlockSize < cfg.nBlockMaxSize) ∧
    (1000 ≤ cfg.nBlockMaxSize →
      (runSelection cfg env hp mp).nBlockSize ≤ cfg.nBlockMaxSize) := by
  refine ⟨Nat.le_max_left _ _, ?_, ?_, ?_⟩
  · exact selectLoop_size_lt cfg env fuel st
  · intro h
    exact selectLoop_size_lt cfg env _ _ h
  · intro h
    exact selectLoop_size_le cfg env _ _ h

/-- Claim C4 witness: the amended bound evaluated with nBlockMaxSize =
2000 on an empty mempool. -/
theorem c4_blocksize_witness :
    (runSelection cfgC4w envC4 id []).nBlockSize < cfgC4w.nBlockMaxSize :=
  (c4_blocksize_amended 3000 2000 cfgC4w envC4 id [] 0
    (initSelState cfgC4w envC4 [])).2.2.1 (by decide)

/-! Helper lemmas for the PoA audit enumeration. -/

/-- When no PoA block exists between START_POA_BLOCK and the scan start,
the backward scan falls below START_POA_BLOCK. -/
theorem findPrevPoA_no_poa (chain : Nat → BlockInfo) (startPoa : Nat)
    (h1 : 1 ≤ startPoa) :
    ∀ n, (∀ h, startPoa ≤ h → h ≤ n → (chain h).isPoA = false) →
      findPrevPoA chain startPoa n < startPoa := by
  intro n
  induction n with
  | zero =>
    intro _
    simpa [findPrevPoA] using h1
  | succ m ih =>
    intro hno
    unfold findPrevPoA
    split
    · assumption
    · rename_i hge
      rw [hno (m + 1) (by omega) (by omega)]
      simp only [Bool.false_eq_true, if_false]
      exact ih (fun h hs hl => hno h hs (by omega))

/-- The genesis enumeration audits exactly the consecutive heights
LAST_POW_BLOCK+1 .. LAST_POW_BLOCK+MAX_NUM_POS_BLOCKS_AUDITED, in
ascending order, for every chain (no proof-of-stake check). -/
theorem genesisAudits_heights (chain : Nat → BlockInfo) (r : Nat → Bool)
    (lp ma : Nat) :
    (genesisAudits chain r lp ma).map PoSBlockSummary.height =
      List.range' (lp + 1) ma := by
  unfold genesisAudits
  rw [List.map_map, List.range'_eq_map_range]
  rfl

/-- The genesis enumeration always has exactly MAX_NUM_POS_BLOCKS_AUDITED
entries. -/
theorem genesisAudits_length (chain : Nat → BlockInfo) (r : Nat → Bool)
    (lp ma : Nat) : (genesisAudits chain r lp ma).length = ma := by
  unfold genesisAudits
  simp

/-- The (hash, height) projection of the genesis enumeration is
independent of the re-verification outcomes. -/
theorem genesisAudits_key (chain : Nat → BlockInfo) (r1 r2 : Nat → Bool)
    (lp ma : Nat) :
    (genesisAudits chain r1 lp ma).map sKey = (genesisAudits chain r2 lp ma).map sKey := by
  unfold genesisAudits
  rw [List.map_map, List.map_map]
  rfl

/-- Every summary of the genesis enumeration has its hash recorded from
the chain and its nTime zeroed exactly on re-verification failure. -/
theorem genesisAudits_mem (chain : Nat → BlockInfo) (r : Nat → Bool)
    (lp ma : Nat) (s : PoSBlockSummary) (hs : s ∈ genesisAudits chain r lp ma) :
    s.hash = (chain s.height).hash ∧
    s.nTime = if r s.height then (chain s.height).nTime else 0 := by
  unfold genesisAudits at hs
  rw [List.mem_map] at hs
  obtain ⟨k, _, rfl⟩ := hs
  exact ⟨rfl, rfl⟩

/-- When the backward scan ends at or below START_POA_BLOCK,
GetListOfPoSInfo takes the genesis branch. -/
theorem getListOfPoSInfo_genesis (chain : Nat → BlockInfo) (r : Nat → Bool)
    (sp lp ma ch : Nat) (h : findPrevPoA chain sp ch ≤ sp) :
    getListOfPoSInfo chain r sp lp ma ch =
      (genesisAudits chain r lp ma, findPrevPoA chain sp ch) := by
  unfold getListOfPoSInfo
  rw [if_pos h]

/-- The (hash, height) projection of the continuation enumeration is
independent of the re-verification outcomes. -/
theorem contAudits_key_eq (chain : Nat → BlockInfo) (r1 r2 : Nat → Bool)
    (ma ch : Nat) :
    ∀ fuel next (acc1 acc2 : List PoSBlockSummary),
      acc1.map sKey = acc2.map sKey →
        (contAudits chain r1 ma ch fuel next acc1).map sKey =
        (contAudits chain r2 ma ch fuel next acc2).map sKey := by
  intro fuel
  induction fuel with
  | zero =>
    intro next acc1 acc2 h
    simpa [contAudits] using h
  | succ n ih =>
    intro next acc1 acc2 h
    have hlen : acc1.length = acc2.length := by
      have := congrArg List.length h
      simpa using this
    unfold contAudits
    by_cases hch : ch < next
    · rw [if_pos hch, if_pos hch]; exact h
    · rw [if_neg hch, if_neg hch]
      by_cases hpos : (chain next).isPoS = true
      · rw [if_pos hpos, if_pos hpos]
        have h2 : (acc1 ++ [PoSBlockSummary.mk (chain next).hash
            (if r1 next then (chain next).nTime else 0) next]).map sKey =
            (acc2 ++ [PoSBlockSummary.mk (chain next).hash
              (if r2 next then (chain next).nTime else 0) next]).map sKey := by
          rw [List.map_append, List.map_append, h]
          rfl
        have hlen2 : (acc1 ++ [PoSBlockSummary.mk (chain next).hash
            (if r1 next then (chain next).nTime else 0) next]).length =
            (acc2 ++ [PoSBlockSummary.mk (chain next).hash
              (if r2 next then (chain next).nTime else 0) next]).length := by
          simp [hlen]
        by_cases hbreak : (acc1 ++ [PoSBlockSummary.mk (chain next).hash
            (if r1 next then (chain next).nTime else 0) next]).length = ma
        · have hbreakb : (acc2 ++ [PoSBlockSummary.mk (chain next).hash
              (if r2 next then (chain next).nTime else 0) next]).length = ma := by
            rw [← hlen2]; exact hbreak
          rw [if_pos hbreak, if_pos hbreakb]; exact h2
        · have hbreakb : ¬ (acc2 ++ [PoSBlockSummary.mk (chain next).hash
              (if r2 next then (chain next).nTime else 0) next]).length = ma := by
            rw [← hlen2]; exact hbreak
          rw [if_neg hbreak, if_neg hbreakb]
          exact ih (next + 1) _ _ h2
      · rw [if_neg hpos, if_neg hpos]
        by_cases hbreak : acc1.length = ma
        · have hbreakb : acc2.length = ma := by rw [← hlen]; exact hbreak
          rw [if_pos hbreak, if_pos hbreakb]; exact h
        · have hbreakb : ¬ acc2.length = ma := by rw [← hlen]; exact hbreak
          rw [if_neg hbreak, if_neg hbreakb]
          exact ih (next + 1) acc1 acc2 h

/-- Invariant transport through the continuation enumeration: any
property that holds on the accumulator and on every summary the loop can
append (at a proof-of-stake height) holds on the whole output. -/
theorem contAudits_mem (chain : Nat → BlockInfo) (r : Nat → Bool)
    (ma ch : Nat) (P : PoSBlockSummary → Prop)
    (hnew : ∀ i, (chain i).isPoS = true →
      P (PoSBlockSummary.mk (chain i).hash (if r i then (chain i).nTime else 0) i)) :
    ∀ fuel next (acc : List PoSBlockSummary), (∀ s ∈ acc, P s) →
      ∀ s ∈ contAudits chain r ma ch fuel next acc, P s := by
  intro fuel
  induction fuel with
  | zero =>
    intro next acc hacc s hs
    exact hacc s (by simpa [contAudits] using hs)
  | succ n ih =>
    intro next acc hacc s hs
    unfold contAudits at hs
    by_cases hch : ch < next
    · rw [if_pos hch] at hs; exact hacc s hs
    · rw [if_neg hch] at hs
      by_cases hpos : (chain next).isPoS = true
      · rw [if_pos hpos] at hs
        have hacc2 : ∀ t ∈ acc ++ [PoSBlockSummary.mk (chain next).hash
            (if r next then (chain next).nTime else 0) next], P t := by
          intro t ht
          rcases List.mem_append.mp ht with ht1 | ht2
          · exact hacc t ht1
          · rw [List.mem_singleton] at ht2
            rw [ht2]
            exact hnew next hpos
        by_cases hbreak : (acc ++ [PoSBlockSummary.mk (chain next).hash
            (if r next then (chain next).nTime else 0) next]).length = ma
        · rw [if_pos hbreak] at hs; exact hacc2 s hs
        · rw [if_neg hbreak] at hs
          exact ih (next + 1) _ hacc2 s hs
      · rw [if_neg hpos] at hs
        by_cases hbreak : acc.length = ma
        · rw [if_pos hbreak] at hs; exact hacc s hs
        · rw [if_neg hbreak] at hs
          exact ih (next + 1) acc hacc s hs

/-- Claim C5 (confirmed): when no prior PoA block exists at or below the
tip (the backward scan passes START_POA_BLOCK), GetListOfPoSInfo appends
exactly MAX_NUM_POS_BLOCKS_AUDITED summaries for the consecutive heights
LAST_POW_BLOCK+1 .. LAST_POW_BLOCK+MAX_NUM_POS_BLOCKS_AUDITED in
ascending order; with LAST_POW_BLOCK = 200, MAX_NUM_POS_BLOCKS_AUDITED =
59 and a pre-hardfork tip, CreateNewPoABlock returns a template whose
audit heights are 201..259 and whose coinbase value is 59 * 0.5 * COIN =
2950000000. -/
theorem c5_poa_genesis (chain : Nat → BlockInfo) (reverify : Nat → Bool)
    (startPoa tipHeight hardFork : Nat)
    (h1 : 1 ≤ startPoa) (h2 : startPoa ≤ tipHeight)
    (hno : ∀ h, startPoa ≤ h → h ≤ tipHeight → (chain h).isPoA = false)
    (hpre : tipHeight < hardFork) :
    (∀ lastPow maxAudited,
      ((getListOfPoSInfo chain reverify startPoa lastPow maxAudited tipHeight).1).map
          PoSBlockSummary.height = List.range' (lastPow + 1) maxAudited ∧
      ((getListOfPoSInfo chain reverify startPoa lastPow maxAudited tipHeight).1).length =
        maxAudited) ∧
    createNewPoABlock chain reverify startPoa 200 59 hardFork tipHeight =
      some ((getListOfPoSInfo chain reverify startPoa 200 59 tipHeight).1, 59 * (COIN / 2)) ∧
    ((getListOfPoSInfo chain reverify startPoa 200 59 tipHeight).1).map
        PoSBlockSummary.height = List.range' 201 59 ∧
    59 * (COIN / 2) = 2950000000 := by
  have hfind : findPrevPoA chain startPoa tipHeight < startPoa :=
    findPrevPoA_no_poa chain startPoa h1 tipHeight hno
  have hgen : ∀ lp ma, getListOfPoSInfo chain reverify startPoa lp ma tipHeight =
      (genesisAudits chain reverify lp ma, findPrevPoA chain startPoa tipHeight) :=
    fun lp ma => getListOfPoSInfo_genesis chain reverify startPoa lp ma tipHeight
      (Nat.le_of_lt hfind)
  have hlen : ∀ lp ma,
      ((getListOfPoSInfo chain reverify startPoa lp ma tipHeight).1).length = ma := by
    intro lp ma
    rw [hgen lp ma]
    exact genesisAudits_length chain reverify lp ma
  have hhts : ∀ lp ma,
      ((getListOfPoSInfo chain reverify startPoa lp ma tipHeight).1).map
        PoSBlockSummary.height = List.range' (lp + 1) ma := by
    intro lp ma
    rw [hgen lp ma]
    exact genesisAudits_heights chain reverify lp ma
  refine ⟨fun lp ma => ⟨hhts lp ma, hlen lp ma⟩, ?_, hhts 200 59, by decide⟩
  unfold createNewPoABlock
  rw [if_neg (by omega)]
  rw [if_neg (by rw [hlen 200 59]; decide)]
  rw [hlen 200 59]
  unfold poaReward
  rw [if_neg (by omega)]

/-- Claim C5 witness: the concrete chain chainC5 with
START_POA_BLOCK = 1000, tip 1100 and hardfork at 99999999. -/
theorem c5_poa_genesis_witness :
    ((getListOfPoSInfo chainC5 revC5 1000 200 59 1100).1).map PoSBlockSummary.height =
      List.range' 201 59 ∧
    createNewPoABlock chainC5 revC5 1000 200 59 99999999 1100 =
      some ((getListOfPoSInfo chainC5 revC5 1000 200 59 1100).1, 59 * (COIN / 2)) :=
  ⟨(c5_poa_genesis chainC5 revC5 1000 1100 99999999 (by decide) (by decide)
      (fun _ _ _ => rfl) (by decide)).2.2.1,
   (c5_poa_genesis chainC5 revC5 1000 1100 99999999 (by decide) (by decide)
      (fun _ _ _ => rfl) (by decide)).2.1⟩

/-- Claim C6 (confirmed): for every summary appended by the PoA audit
enumeration, the hash and height are recorded from the chain regardless
of the re-verification outcome - the set of (hash, height) pairs in the
audit list does not depend on the re-verification function at all, so a
block failing re-verification is never omitted - and the summary's nTime
equals the block header time when re-verification succeeds and 0 when it
fails. -/
theorem c6_reverify_recorded :
    (∀ (chain : Nat → BlockInfo) (r1 r2 : Nat → Bool) (sp lp ma ch : Nat),
      ((getListOfPoSInfo chain r1 sp lp ma ch).1).map sKey =
      ((getListOfPoSInfo chain r2 sp lp ma ch).1).map sKey) ∧
    (∀ (chain : Nat → BlockInfo) (r : Nat → Bool) (sp lp ma ch : Nat),
      ∀ s ∈ (getListOfPoSInfo chain r sp lp ma ch).1,
        s.hash = (chain s.height).hash ∧
        s.nTime = if r s.height then (chain s.height).nTime else 0) := by
  constructor
  · intro chain r1 r2 sp lp ma ch
    unfold getListOfPoSInfo
    by_cases hb : findPrevPoA chain sp ch ≤ sp
    · rw [if_pos hb, if_pos hb]
      exact genesisAudits_key chain r1 r2 lp ma
    · rw [if_neg hb, if_neg hb]
      by_cases hb2 : sp < findPrevPoA chain sp ch
      · rw [if_pos hb2, if_pos hb2]
        exact contAudits_key_eq chain r1 r2 ma ch _ _ [] [] rfl
      · rw [if_neg hb2, if_neg hb2]
  · intro chain r sp lp ma ch s hs
    unfold getListOfPoSInfo at hs
    by_cases hb : findPrevPoA chain sp ch ≤ sp
    · rw [if_pos hb] at hs
      exact genesisAudits_mem chain r lp ma s hs
    · rw [if_neg hb] at hs
      by_cases hb2 : sp < findPrevPoA chain sp ch
      · rw [if_pos hb2] at hs
        refine contAudits_mem chain r ma ch
          (fun t => t.hash = (chain t.height).hash ∧
            t.nTime = if r t.height then (chain t.height).nTime else 0)
          (fun i _ => ⟨rfl, rfl⟩) _ _ [] (by intro t ht; cases ht) s hs
      · rw [if_neg hb2] at hs
        cases hs

/-- Claim C6 witness: under chainC6 with re-verification failing exactly
at height 205, the (hash, height) projection of the audit list matches
the one under all-succeeding re-verification, and the summary for height
205 (hash recorded, nTime = 0) satisfies the nTime rule. -/
theorem c6_reverify_recorded_witness :
    ((getListOfPoSInfo chainC6 revC6 1000 200 59 1100).1).map sKey =
      ((getListOfPoSInfo chainC6 revC5 1000 200 59 1100).1).map sKey ∧
    (sC6.hash = (chainC6 sC6.height).hash ∧
      sC6.nTime = if revC6 sC6.height then (chainC6 sC6.height).nTime else 0) :=
  ⟨c6_reverify_recorded.1 chainC6 revC6 revC5 1000 200 59 1100,
   c6_reverify_recorded.2 chainC6 revC6 1000 200 59 1100 sC6 (by decide)⟩

/-- Claim C9 (confirmed): in the no-prior-PoA (genesis) case
GetListOfPoSInfo audits every height LAST_POW_BLOCK+1 ..
LAST_POW_BLOCK+MAX_NUM_POS_BLOCKS_AUDITED for every chain, without any
proof-of-stake test (the height list is the full consecutive range
regardless of the chain's isPoS flags), while the prior-PoA continuation
branch appends a summary only for proof-of-stake blocks. -/
theorem c9_genesis_no_pos_check :
    (∀ (chain : Nat → BlockInfo) (r : Nat → Bool) (lp ma : Nat),
      (genesisAudits chain r lp ma).map PoSBlockSummary.height =
        List.range' (lp + 1) ma) ∧
    (∀ (chain : Nat → BlockInfo) (r : Nat → Bool) (sp lp ma ch : Nat),
      findPrevPoA chain sp ch ≤ sp →
        (getListOfPoSInfo chain r sp lp ma ch).1 = genesisAudits chain r lp ma) ∧
    (∀ (chain : Nat → BlockInfo) (r : Nat → Bool) (ma ch fuel next : Nat)
      (acc : List PoSBlockSummary) (s : PoSBlockSummary),
      s ∈ contAudits chain r ma ch fuel next acc →
        s ∈ acc ∨ (chain s.height).isPoS = true) := by
  refine ⟨fun chain r lp ma => genesisAudits_heights chain r lp ma, ?_, ?_⟩
  · intro chain r sp lp ma ch h
    rw [getListOfPoSInfo_genesis chain r sp lp ma ch h]
  · intro chain r ma ch fuel next acc s hs
    exact contAudits_mem chain r ma ch
      (fun t => t ∈ acc ∨ (chain t.height).isPoS = true)
      (fun i hi => Or.inr hi) fuel next acc (fun t ht => Or.inl ht) s hs

/-- Claim C9 witness: the continuation enumeration over the all-PoS chain
chainC9 starting at height 501 contains sC9, and the theorem yields that
its height is proof-of-stake. -/
theorem c9_genesis_no_pos_check_witness :
    sC9 ∈ ([] : List PoSBlockSummary) ∨ (chainC9 sC9.height).isPoS = true :=
  c9_genesis_no_pos_check.2.2 chainC9 revC5 10 510 10 501 [] sC9 (by decide)

/-- Claim C7 counterexample: with a payee fill that appends an extra
payee output (script 777), the returned block's coinbase still has a
single output - the extra output created by FillBlockPayee lives only on
the local txNew copy (pushed into the block at miner.cpp line 200,
before FillBlockPayee runs at line 417) - refuting the claim that the
extra payee output is part of the returned block's coinbase.  The payee
script is nevertheless recorded in the header's payee field. -/
theorem c7_payee_counterexample :
    (powCoinbaseFinalize 5 100 7 fillC7).payee = some 777 ∧
    (powCoinbaseFinalize 5 100 7 fillC7).blockCoinbaseVout = [CTxOut.mk 107 5] ∧
    (∀ o ∈ (powCoinbaseFinalize 5 100 7 fillC7).blockCoinbaseVout,
      o.scriptPubKey ≠ 777) ∧
    1 < (powCoinbaseFinalize 5 100 7 fillC7).txNewFinalVout.length := by decide

/-- Claim C7 as amended: the payee collaborator fills outputs on a
detached copy of the coinbase; if it created an extra payee output, that
output's script is recorded in the block header's payee field, but the
extra output is NOT part of the returned block's coinbase: in every PoW
template (payee split or not) the returned block's coinbase vout[0]
value equals block_subsidy(prev.height) plus the total selected fees,
and the coinbase keeps its single original output. -/
theorem c7_payee_amended (scriptIn : Nat) (subsidy nFees : Int)
    (fill : List CTxOut → List CTxOut) :
    (powCoinbaseFinalize scriptIn subsidy nFees fill).blockCoinbaseVout =
      [CTxOut.mk (subsidy + nFees) scriptIn] ∧
    (1 < (fill [CTxOut.mk subsidy scriptIn]).length →
      (powCoinbaseFinalize scriptIn subsidy nFees fill).payee =
        some ((fill [CTxOut.mk subsidy scriptIn]).getD 1 (CTxOut.mk 0 0)).scriptPubKey) := by
  constructor
  · rfl
  · intro h
    unfold powCoinbaseFinalize
    simp only [if_pos h]

/-- Claim C7 witness: the amended statement at the concrete fill fillC7,
which creates an extra payee output. -/
theorem c7_payee_witness :
    (powCoinbaseFinalize 9 100 7 fillC7).payee =
      some ((fillC7 [CTxOut.mk 100 9]).getD 1 (CTxOut.mk 0 0)).scriptPubKey :=
  (c7_payee_amended 9 100 7 fillC7).2 (by decide)

/-- Claim C8 (confirmed): a block whose hashPrevBlock differs from the
best-block hash makes ProcessBlockFound return the stale error before
any other effect: the reserve key is not kept, the wallet request
counter is untouched, no BlockFound signal fires, ProcessNewBlock is not
called and no inventory is broadcast (miner.cpp lines 673-677 precede
all effects at lines 680-698). -/
theorem c8_stale_no_effects (hashPrev best : Nat) (processNewBlockOk : Bool)
    (h : hashPrev ≠ best) :
    processBlockFound hashPrev best processNewBlockOk = (false, noEffects) := by
  unfold processBlockFound
  rw [if_pos h]

/-- Claim C8 witness: a concrete stale submission. -/
theorem c8_stale_no_effects_witness :
    processBlockFound 1 2 true = (false, noEffects) :=
  c8_stale_no_effects 1 2 true (by decide)

/-- Claim C10 (confirmed): in the PoS path of CreateNewBlock the
wallet's CreateCoinStake is attempted exactly when the block time at the
search moment is at least the process-wide last coin-stake search time;
when it is smaller the builder performs no search, returns no template
(stakeFound stays false, so CreateNewBlock returns NULL at miner.cpp
lines 229-232) and leaves the search state untouched; and no invocation
ever decreases the last-search-time state. -/
theorem c10_stake_search_gate (blockTime : Int) (walletFindsStake : Bool)
    (st : StakeSearchState) :
    ((posCoinStakeSearch blockTime walletFindsStake st).attempted = true ↔
      st.nLastCoinStakeSearchTime ≤ blockTime) ∧
    (blockTime < st.nLastCoinStakeSearchTime →
      posCoinStakeSearch blockTime walletFindsStake st =
        StakeSearchOutcome.mk false false st) ∧
    st.nLastCoinStakeSearchTime ≤
      (posCoinStakeSearch blockTime walletFindsStake st).newState.nLastCoinStakeSearchTime := by
  unfold posCoinStakeSearch
  by_cases h : st.nLastCoinStakeSearchTime ≤ blockTime
  · rw [if_pos h]
    refine ⟨by simp [h], fun hlt => absurd h (by omega), h⟩
  · rw [if_neg h]
    exact ⟨by simp [h], fun _ => rfl, le_refl _⟩

/-- Claim C10 witness: a search moment strictly before the stored last
search time yields no attempt, no template and an unchanged state. -/
theorem c10_stake_search_gate_witness :
    posCoinStakeSearch 3 true (StakeSearchState.mk 10 0) =
      StakeSearchOutcome.mk false false (StakeSearchState.mk 10 0) :=
  (c10_stake_search_gate 3 true (StakeSearchState.mk 10 0)).2.1 (by decide)
